import Mathlib

/-!
Shallow embedding of `clp_notification_monitor`:
`compression_buffer/compression_buffer.py` (classes `SingleBuffer` and
`CompressionBuffer`) and the submission loop of `main.py`
(`submit_compression_jobs_thread_entry`).

Modelling choices:
- A `PurePath` is its tuple of parts, a `List String`.  `relative_to`
  is the lexical segment-wise test pathlib performs: it succeeds iff the
  base's parts are a prefix of the path's parts, yielding the remaining
  parts (empty when the two paths are equal, in which case pathlib
  returns `PurePath(".")`, whose `parts` tuple is empty).
- `datetime` values and `timedelta` values are integers (a fixed clock
  unit, e.g. milliseconds); `datetime.now()` becomes an explicit `now`
  argument threaded to the functions that call it.
- The insertion-ordered Python `dict` of named buffers is an
  association list; a new key is appended at the end, as CPython does.
- The single `threading.Lock` (shared with the `Condition`) is a
  boolean field `lockHeld` of the state: `append` and
  `wait_for_compression_jobs` enter `with self.__populate_buffer_cv`,
  which acquires that lock, so they can run only while it is free;
  `get_paths_to_compress` acquires and releases it explicitly.
- Python exceptions that propagate out of a method are an `Except`
  result whose `error` payload is the state at the moment of the raise.
-/

namespace ClpMonitor

/-- The parts tuple of a `pathlib.PurePath`. -/
abbrev PyPath := List String

/-- Model of `PurePath.relative_to`: succeeds iff `base`'s parts are a prefix of
`p`'s parts, returning the remaining parts; `none` models the
`ValueError` pathlib raises otherwise. -/
def relativeTo (p base : PyPath) : Option PyPath :=
  if base.isPrefixOf p then some (p.drop base.length) else none

/-- Class `SingleBuffer` from `compression_buffer.py`: one group's ordered
path list, running size total, and timestamp of its first member since
the last drain. -/
structure SingleBuffer where
  path_list : List PyPath
  total_buffer_size : Int
  first_path_timestamp : Option Int
deriving DecidableEq, Repr

/-- Constructor `SingleBuffer.__init__`: empty list, zero size, no timestamp. -/
def SingleBuffer.init : SingleBuffer :=
  { path_list := [], total_buffer_size := 0, first_path_timestamp := none }

/-- Method `SingleBuffer.clear`: reset to the freshly-initialised state. -/
def SingleBuffer.clear (_b : SingleBuffer) : SingleBuffer :=
  { path_list := [], total_buffer_size := 0, first_path_timestamp := none }

/-- The mutation `CompressionBuffer.append` performs on the target
buffer (lines 65-69 of `compression_buffer.py`): add the size, set the
first timestamp only if unset, append the path. -/
def SingleBuffer.appendEntry (b : SingleBuffer) (s3_path : PyPath)
    (object_size : Int) (process_timestamp : Int) : SingleBuffer :=
  { total_buffer_size := b.total_buffer_size + object_size
    first_path_timestamp :=
      match b.first_path_timestamp with
      | none => some process_timestamp
      | some t => some t
    path_list := b.path_list ++ [s3_path] }

/-- State of a `CompressionBuffer` (configuration fields included; the
logger is omitted as pure output).  The source field
`__group_by_paths_under_prefix` is named `group_root` here. -/
structure CompressionBuffer where
  max_buffer_size : Int
  min_refresh_period : Int
  named_buffers : List (String × SingleBuffer)
  ready_buffers : List String
  group_root : PyPath
  lockHeld : Bool
deriving DecidableEq, Repr

/-- Update the value stored under `k`, or append the binding at the end
when `k` is absent — the net effect of `self.__named_buffers[k]` lookup
with the `except KeyError` insertion path, followed by in-place
mutation of the (aliased) buffer object. -/
def upsert (m : List (String × SingleBuffer)) (k : String) (v : SingleBuffer) :
    List (String × SingleBuffer) :=
  match m with
  | [] => [(k, v)]
  | (k', v') :: rest => if k' = k then (k, v) :: rest else (k', v') :: upsert rest k v

/-- The group-key computation at the top of `CompressionBuffer.append`
(lines 50-55): `relative_path = s3_path.relative_to(prefix)` then
`index_name = relative_path.parts[0]`, with `except (KeyError,
ValueError)` falling back to `""`.  A failing `relative_to`
(`ValueError`) is caught, giving `""`; but when `s3_path` equals the
configured prefix, `relative_path.parts` is the empty tuple and
`parts[0]` raises `IndexError`, which the clause does NOT catch:
that is the `none` result. -/
def computeIndexName (group_root : PyPath) (s3_path : PyPath) : Option String :=
  match relativeTo s3_path group_root with
  | some relative_path => relative_path.head?
  | none => some ""

/-- Method `CompressionBuffer.append`.  Here `Except.error st` models an uncaught
exception escaping with the state as it was at the raise: the
`IndexError` fires before any buffer is created or mutated. -/
def CompressionBuffer.append (cb : CompressionBuffer) (s3_path : PyPath)
    (object_size : Int) (process_timestamp : Int) :
    Except CompressionBuffer CompressionBuffer :=
  match computeIndexName cb.group_root s3_path with
  | none => .error cb
  | some index_name =>
    let target_buffer : SingleBuffer :=
      (cb.named_buffers.lookup index_name).getD SingleBuffer.init
    .ok { cb with
      named_buffers :=
        upsert cb.named_buffers index_name
          (target_buffer.appendEntry s3_path object_size process_timestamp) }

/-- The scan of `CompressionBuffer._get_buffers_ready_for_compression`
(lines 96-122), with `datetime.now()` passed in as `now`: skip a buffer
whose first timestamp is unset; collect it if its total size exceeds
the maximum, or else if the elapsed time since its first timestamp
exceeds the minimum refresh period. -/
def getBuffersReadyForCompression (now max_buffer_size min_refresh_period : Int) :
    List (String × SingleBuffer) → List String
  | [] => []
  | (buf_name, buf) :: rest =>
    match buf.first_path_timestamp with
    | none => getBuffersReadyForCompression now max_buffer_size min_refresh_period rest
    | some first_ts =>
      if buf.total_buffer_size > max_buffer_size then
        buf_name :: getBuffersReadyForCompression now max_buffer_size min_refresh_period rest
      else if now - first_ts > min_refresh_period then
        buf_name :: getBuffersReadyForCompression now max_buffer_size min_refresh_period rest
      else
        getBuffersReadyForCompression now max_buffer_size min_refresh_period rest

/-- Lines 138-150 of `get_paths_to_compress`: pop the first ready
buffer name, copy its path list, clear the buffer, and release the lock
iff the ready queue just became empty.  (`self.__named_buffers[name]`
cannot fail: every name in the ready queue was collected from a scan of
`named_buffers`; the `getD` default is never reached then.) -/
def CompressionBuffer.drainFirstReady (cb : CompressionBuffer) :
    (List PyPath × String) × CompressionBuffer :=
  match cb.ready_buffers with
  | [] => (([], ""), cb)
  | buffer_name :: rest =>
    let target_buffer : SingleBuffer :=
      (cb.named_buffers.lookup buffer_name).getD SingleBuffer.init
    let path_list_to_return := target_buffer.path_list
    ((path_list_to_return, buffer_name),
     { cb with
        named_buffers := upsert cb.named_buffers buffer_name target_buffer.clear
        ready_buffers := rest
        lockHeld := if rest.isEmpty then false else cb.lockHeld })

/-- Method `CompressionBuffer.get_paths_to_compress` (lines 124-150): when the
ready queue is empty, acquire the lock and rescan; if the scan is
empty, release the lock and return the empty result; otherwise drain
the first ready buffer (releasing the lock only when the queue becomes
empty again). -/
def CompressionBuffer.get_paths_to_compress (cb : CompressionBuffer) (now : Int) :
    (List PyPath × String) × CompressionBuffer :=
  if cb.ready_buffers.isEmpty then
    let cb1 := { cb with lockHeld := true }
    let scanned := getBuffersReadyForCompression now cb1.max_buffer_size
        cb1.min_refresh_period cb1.named_buffers
    if scanned.isEmpty then
      (([], ""), { cb1 with ready_buffers := scanned, lockHeld := false })
    else
      CompressionBuffer.drainFirstReady { cb1 with ready_buffers := scanned }
  else
    CompressionBuffer.drainFirstReady cb

/-- Whether some named buffer is non-empty (`first_path_timestamp`
set) — the predicate of the scan loop in `wait_for_compression_jobs`
(lines 87-91), negated: the loop breaks iff this is true. -/
def anyBufferNonEmpty (cb : CompressionBuffer) : Bool :=
  cb.named_buffers.any (fun p => p.2.first_path_timestamp.isSome)

/-- Outcome of one evaluation of `wait_for_compression_jobs`'s control
flow at a given buffer state.  `blocks` means the thread calls
`self.__populate_buffer_cv.wait()` and, on wake-up, re-evaluates this
same function on the then-current state (the `while True` loop). -/
inductive WaitOutcome where
  | returnsWithoutLock
  | returnsAfterLock
  | blocks
deriving DecidableEq, Repr

/-- Method `CompressionBuffer.wait_for_compression_jobs` (lines 74-94): return
immediately — before touching the lock — when the ready queue is
non-empty; otherwise acquire the lock and loop: return once some
buffer is non-empty, else wait on the condition variable. -/
def CompressionBuffer.wait_for_compression_jobs (cb : CompressionBuffer) : WaitOutcome :=
  if cb.ready_buffers.length > 0 then
    .returnsWithoutLock
  else if anyBufferNonEmpty cb then
    .returnsAfterLock
  else
    .blocks

theorem lookup_upsert_self (m : List (String × SingleBuffer)) (k : String) (v : SingleBuffer) :
    (upsert m k v).lookup k = some v := by
  induction m with
  | nil => simp [upsert, List.lookup]
  | cons hd tl ih =>
    obtain ⟨k', v'⟩ := hd
    by_cases h : k' = k
    · simp [upsert, h, List.lookup]
    · have hbe : (k == k') = false := by
        simp only [beq_eq_false_iff_ne, ne_eq]
        exact fun hc => h hc.symm
      simp [upsert, h, List.lookup, hbe, ih]

theorem drainFirstReady_cons (cb : CompressionBuffer) (buffer_name : String)
    (rest : List String) (hready : cb.ready_buffers = buffer_name :: rest) :
    cb.drainFirstReady =
      ((((cb.named_buffers.lookup buffer_name).getD SingleBuffer.init).path_list, buffer_name),
       { cb with
          named_buffers := upsert cb.named_buffers buffer_name
            ((cb.named_buffers.lookup buffer_name).getD SingleBuffer.init).clear
          ready_buffers := rest
          lockHeld := if rest.isEmpty then false else cb.lockHeld }) := by
  unfold CompressionBuffer.drainFirstReady
  rw [hready]

theorem get_paths_nonempty_queue (cb : CompressionBuffer) (now : Int)
    (buffer_name : String) (rest : List String)
    (hready : cb.ready_buffers = buffer_name :: rest) :
    cb.get_paths_to_compress now = cb.drainFirstReady := by
  unfold CompressionBuffer.get_paths_to_compress
  rw [hready]
  rfl

theorem get_paths_empty_scan (cb : CompressionBuffer) (now : Int)
    (hready : cb.ready_buffers = [])
    (hscan : getBuffersReadyForCompression now cb.max_buffer_size cb.min_refresh_period
      cb.named_buffers = []) :
    cb.get_paths_to_compress now = (([], ""), { cb with lockHeld := false }) := by
  unfold CompressionBuffer.get_paths_to_compress
  rw [hready]
  rw [if_pos (show ([] : List String).isEmpty = true from rfl)]
  simp only [hscan]
  rfl

theorem get_paths_fresh_scan (cb : CompressionBuffer) (now : Int)
    (buffer_name : String) (rest : List String)
    (hready : cb.ready_buffers = [])
    (hscan : getBuffersReadyForCompression now cb.max_buffer_size cb.min_refresh_period
      cb.named_buffers = buffer_name :: rest) :
    cb.get_paths_to_compress now =
      CompressionBuffer.drainFirstReady
        { cb with lockHeld := true, ready_buffers := buffer_name :: rest } := by
  unfold CompressionBuffer.get_paths_to_compress
  rw [hready]
  rw [if_pos (show ([] : List String).isEmpty = true from rfl)]
  simp only [hscan]
  rfl

/-- The ready queue `get_paths_to_compress` will drain from at state
`cb` and time `now`: the stored queue if it is non-empty, otherwise
the queue a fresh scan produces. -/
def effectiveReady (cb : CompressionBuffer) (now : Int) : List String :=
  if cb.ready_buffers.isEmpty then
    getBuffersReadyForCompression now cb.max_buffer_size cb.min_refresh_period cb.named_buffers
  else cb.ready_buffers

/-- Claim C3: when `get_paths_to_compress` drains a group (the head of
the effective ready queue), it returns that group's accumulated
`path_list` — exactly the paths appended since the last drain, in
append order, by `single_group_append_invariant` — together with the
group key, and immediately afterwards the group is empty: no members,
total size 0, first timestamp unset. -/
theorem drain_eligible_group_spec (cb : CompressionBuffer) (now : Int)
    (buffer_name : String) (rest : List String) (buf : SingleBuffer)
    (hready : effectiveReady cb now = buffer_name :: rest)
    (hbuf : cb.named_buffers.lookup buffer_name = some buf) :
    (cb.get_paths_to_compress now).1 = (buf.path_list, buffer_name) ∧
      ∃ cleared,
        (cb.get_paths_to_compress now).2.named_buffers.lookup buffer_name = some cleared ∧
        cleared.path_list = [] ∧ cleared.total_buffer_size = 0 ∧
        cleared.first_path_timestamp = none := by
  unfold effectiveReady at hready
  cases hrb : cb.ready_buffers with
  | nil =>
    rw [hrb] at hready
    rw [if_pos (show ([] : List String).isEmpty = true from rfl)] at hready
    rw [get_paths_fresh_scan cb now buffer_name rest hrb hready]
    rw [drainFirstReady_cons _ buffer_name rest rfl]
    refine ⟨by simp [hbuf], ⟨SingleBuffer.init, ?_, rfl, rfl, rfl⟩⟩
    show (upsert cb.named_buffers buffer_name _).lookup buffer_name = _
    rw [lookup_upsert_self]
    rfl
  | cons hd tl =>
    rw [hrb] at hready
    rw [if_neg (by simp)] at hready
    cases hready
    rw [get_paths_nonempty_queue cb now buffer_name rest hrb]
    rw [drainFirstReady_cons cb buffer_name rest hrb]
    refine ⟨by simp [hbuf], ⟨SingleBuffer.init, ?_, rfl, rfl, rfl⟩⟩
    show (upsert cb.named_buffers buffer_name _).lookup buffer_name = _
    rw [lookup_upsert_self]
    rfl

/-- Witness state for the drain theorem: one ready group `"a"` holding
two paths. -/
def cbDrainW : CompressionBuffer :=
  { max_buffer_size := 16
    min_refresh_period := 5000
    named_buffers := [("a", ⟨[["/", "x"], ["/", "y"]], 20, some 0⟩)]
    ready_buffers := ["a"]
    group_root := ["/"]
    lockHeld := true }

/-- Witness for `drain_eligible_group_spec` at the concrete state
`cbDrainW`. -/
theorem drain_eligible_group_spec_witness :
    (cbDrainW.get_paths_to_compress 1).1 = ([["/", "x"], ["/", "y"]], "a") ∧
      ∃ cleared,
        (cbDrainW.get_paths_to_compress 1).2.named_buffers.lookup "a" = some cleared ∧
        cleared.path_list = [] ∧ cleared.total_buffer_size = 0 ∧
        cleared.first_path_timestamp = none :=
  drain_eligible_group_spec cbDrainW 1 "a" [] ⟨[["/", "x"], ["/", "y"]], 20, some 0⟩
    (by decide) (by decide)

/-- The lock discipline of `get_paths_to_compress`: the buffer's lock
is held by the draining thread exactly while the ready queue is
non-empty (the lock is acquired with the scan that fills the queue and
released only by the call that empties it). -/
def lockDiscipline (cb : CompressionBuffer) : Prop :=
  cb.lockHeld = !cb.ready_buffers.isEmpty

/-- Fact about the source: `append` opens with `with self.__populate_buffer_cv`, which
acquires the buffer's lock (the `Condition` is built on `self.__lock`),
so `append` cannot run — and no state it could observe exists — while
another thread holds that lock. -/
def appendMustWait (cb : CompressionBuffer) : Bool := cb.lockHeld

/-- Claim C6: `get_paths_to_compress` preserves the lock discipline,
and whenever a drain leaves further ready groups in the queue
(a multi-group cycle in progress), the lock is still held, so a
concurrent `append` must wait and cannot observe the partially-drained
state between the drains of one cycle. -/
theorem drain_cycle_exclusive_access (cb : CompressionBuffer) (now : Int)
    (h : lockDiscipline cb) :
    lockDiscipline (cb.get_paths_to_compress now).2 ∧
      ((cb.get_paths_to_compress now).2.ready_buffers ≠ [] →
        appendMustWait (cb.get_paths_to_compress now).2 = true) := by
  have hdrain : ∀ cb' : CompressionBuffer, ∀ buffer_name rest,
      cb'.ready_buffers = buffer_name :: rest → cb'.lockHeld = true →
      lockDiscipline cb'.drainFirstReady.2 ∧
        (cb'.drainFirstReady.2.ready_buffers ≠ [] →
          appendMustWait cb'.drainFirstReady.2 = true) := by
    intro cb' buffer_name rest hr hlk
    rw [drainFirstReady_cons cb' buffer_name rest hr]
    cases rest with
    | nil => exact ⟨rfl, fun hc => absurd rfl hc⟩
    | cons r rs =>
      refine ⟨?_, fun _ => ?_⟩
      · simp [lockDiscipline, hlk]
      · simp [appendMustWait, hlk]
  cases hrb : cb.ready_buffers with
  | nil =>
    cases hscan : getBuffersReadyForCompression now cb.max_buffer_size
        cb.min_refresh_period cb.named_buffers with
    | nil =>
      rw [get_paths_empty_scan cb now hrb hscan]
      refine ⟨?_, fun hc => absurd hrb hc⟩
      show false = !cb.ready_buffers.isEmpty
      rw [hrb]
      rfl
    | cons buffer_name rest =>
      rw [get_paths_fresh_scan cb now buffer_name rest hrb hscan]
      exact hdrain _ buffer_name rest rfl rfl
  | cons buffer_name rest =>
    rw [get_paths_nonempty_queue cb now buffer_name rest hrb]
    refine hdrain cb buffer_name rest hrb ?_
    rw [lockDiscipline, hrb] at h
    simpa using h

/-- Witness state for the lock-discipline theorem: two groups ready in
the same cycle, lock held. -/
def cbCycleW : CompressionBuffer :=
  { max_buffer_size := 16
    min_refresh_period := 5000
    named_buffers := [("a", ⟨[["/", "x"]], 20, some 0⟩), ("b", ⟨[["/", "y"]], 30, some 0⟩)]
    ready_buffers := ["a", "b"]
    group_root := ["/"]
    lockHeld := true }

/-- Witness for `drain_cycle_exclusive_access`: draining group `"a"`
of `cbCycleW` leaves `"b"` ready and the lock held. -/
theorem drain_cycle_exclusive_access_witness :
    lockDiscipline (cbCycleW.get_paths_to_compress 1).2 ∧
      ((cbCycleW.get_paths_to_compress 1).2.ready_buffers ≠ [] →
        appendMustWait (cbCycleW.get_paths_to_compress 1).2 = true) :=
  drain_cycle_exclusive_access cbCycleW 1 rfl

/-- Claim C7: `wait_for_compression_jobs` returns immediately, without
touching the lock, exactly when the ready queue from a prior scan is
still non-empty; and it blocks (calls `cv.wait()`, re-evaluating this
same classification on the state found at each wake-up) exactly when
the ready queue is empty and every group is empty (`anyBufferNonEmpty`
false, i.e. no group has `first_path_timestamp` set). -/
theorem wait_for_jobs_behavior (cb : CompressionBuffer) :
    (cb.wait_for_compression_jobs = .returnsWithoutLock ↔ cb.ready_buffers ≠ []) ∧
      (cb.wait_for_compression_jobs = .blocks ↔
        (cb.ready_buffers = [] ∧ anyBufferNonEmpty cb = false)) := by
  unfold CompressionBuffer.wait_for_compression_jobs
  cases hrb : cb.ready_buffers with
  | nil =>
    cases hne : anyBufferNonEmpty cb with
    | false => simp [hne]
    | true => simp [hne]
  | cons hd tl =>
    simp

/-- Repeated calls to `get_paths_to_compress`, one per supplied clock
reading, collecting the returned results. -/
def drainRepeatedly (cb : CompressionBuffer) : List Int →
    List (List PyPath × String) × CompressionBuffer
  | [] => ([], cb)
  | now :: nows =>
    ((cb.get_paths_to_compress now).1 ::
        (drainRepeatedly (cb.get_paths_to_compress now).2 nows).1,
      (drainRepeatedly (cb.get_paths_to_compress now).2 nows).2)

/-- Claim C8: from a state with an empty ready queue (lock free, per
the discipline) in which the scan finds no eligible group at any of the
supplied times, every call returns the empty result and the final state
equals the initial one — every group's members, size and timestamp and
the ready queue are untouched. -/
theorem empty_drain_idempotent (cb : CompressionBuffer) (nows : List Int)
    (hready : cb.ready_buffers = [])
    (hlock : cb.lockHeld = false)
    (hscan : ∀ now ∈ nows,
      getBuffersReadyForCompression now cb.max_buffer_size cb.min_refresh_period
        cb.named_buffers = []) :
    (drainRepeatedly cb nows).1 = nows.map (fun _ => ([], "")) ∧
      (drainRepeatedly cb nows).2 = cb := by
  have hstep : ∀ now ∈ nows, cb.get_paths_to_compress now = (([], ""), cb) := by
    intro now hmem
    rw [get_paths_empty_scan cb now hready (hscan now hmem)]
    have : { cb with lockHeld := false } = cb := by
      rw [← hlock]
    rw [this]
  clear hscan
  induction nows with
  | nil => exact ⟨rfl, rfl⟩
  | cons now nows ih =>
    have hhd := hstep now (List.mem_cons_self now nows)
    have htl := ih (fun t ht => hstep t (List.mem_cons_of_mem now ht))
    constructor
    · simp only [drainRepeatedly, hhd, List.map_cons]
      rw [htl.1]
    · simp only [drainRepeatedly, hhd]
      exact htl.2

/-- Witness state for idempotence: one group below both thresholds at
the probed times, one empty group. -/
def cbIdleW : CompressionBuffer :=
  { max_buffer_size := 16
    min_refresh_period := 5000
    named_buffers := [("a", ⟨[["/", "x"]], 10, some 0⟩), ("b", SingleBuffer.init)]
    ready_buffers := []
    group_root := ["/"]
    lockHeld := false }

/-- Witness for `empty_drain_idempotent` at `cbIdleW` with two probe
times. -/
theorem empty_drain_idempotent_witness :
    (drainRepeatedly cbIdleW [1, 2]).1 = [([], ""), ([], "")] ∧
      (drainRepeatedly cbIdleW [1, 2]).2 = cbIdleW :=
  empty_drain_idempotent cbIdleW [1, 2] rfl rfl (by decide)

/-- Python `len()` of the value bound to `paths_to_compress` in
`submit_compression_jobs_thread_entry` (`main.py` line 83-84).  The
value is the pair returned by `get_paths_to_compress`, a 2-tuple, so
its Python length is 2 regardless of the contents. -/
def pyLenOfDrainResult (_r : List PyPath × String) : Nat := 2

/-- What the inner loop of `submit_compression_jobs_thread_entry` does
with one drain result. -/
inductive LoopAction where
  | sleepRetry (duration : Nat) (next_sleep_time : Nat)
  | submitJob (r : List PyPath × String)
deriving DecidableEq, Repr

/-- One iteration of the inner loop of
`submit_compression_jobs_thread_entry` (`main.py` lines 82-130): test
`0 == len(paths_to_compress)`; if so, sleep `sleep_time` and double it
capped at `max_polling_period`; otherwise fall through to build and
insert a job entry from `paths_to_compress`. -/
def submissionLoopStep (paths_to_compress : List PyPath × String)
    (sleep_time max_polling_period : Nat) : LoopAction :=
  if 0 = pyLenOfDrainResult paths_to_compress then
    .sleepRetry sleep_time (min (sleep_time * 2) max_polling_period)
  else
    .submitJob paths_to_compress

/-- One ingestion event routed to a single group: the arguments of one
`append` call that reaches that group's `SingleBuffer`. -/
structure IngestEvent where
  s3_path : PyPath
  object_size : Int
  process_timestamp : Int
deriving DecidableEq, Repr

/-- Replay a sequence of routed `append` calls on one group's buffer. -/
def applyEvents (b : SingleBuffer) (evs : List IngestEvent) : SingleBuffer :=
  evs.foldl (fun acc e => acc.appendEntry e.s3_path e.object_size e.process_timestamp) b

theorem applyEvents_cons (b : SingleBuffer) (e : IngestEvent) (evs : List IngestEvent) :
    applyEvents b (e :: evs) =
      applyEvents (b.appendEntry e.s3_path e.object_size e.process_timestamp) evs := rfl

theorem applyEvents_total (b : SingleBuffer) (evs : List IngestEvent) :
    (applyEvents b evs).total_buffer_size =
      b.total_buffer_size + (evs.map (fun e => e.object_size)).sum := by
  induction evs generalizing b with
  | nil => simp [applyEvents]
  | cons e evs ih =>
    rw [applyEvents_cons, ih]
    simp [SingleBuffer.appendEntry]
    ring

theorem applyEvents_paths (b : SingleBuffer) (evs : List IngestEvent) :
    (applyEvents b evs).path_list = b.path_list ++ evs.map (fun e => e.s3_path) := by
  induction evs generalizing b with
  | nil => simp [applyEvents]
  | cons e evs ih =>
    rw [applyEvents_cons, ih]
    simp [SingleBuffer.appendEntry]

theorem applyEvents_first (b : SingleBuffer) (evs : List IngestEvent) :
    (applyEvents b evs).first_path_timestamp =
      match b.first_path_timestamp with
      | some t => some t
      | none => evs.head?.map (fun e => e.process_timestamp) := by
  induction evs generalizing b with
  | nil =>
    show b.first_path_timestamp = _
    cases b.first_path_timestamp <;> rfl
  | cons e evs ih =>
    rw [applyEvents_cons, ih]
    cases hfp : b.first_path_timestamp <;> simp [SingleBuffer.appendEntry, hfp]

/-- Claim C5: replaying any sequence of appends routed to one group,
starting from the state `clear` leaves after a drain, gives a buffer
whose `total_buffer_size` is the sum of the appended sizes, whose
`first_path_timestamp` is the timestamp of the first append (and is
never changed by later appends), and whose `path_list` is exactly the
appended paths in order.  `∀ evs` covers the state after each append,
every earlier state being the replay of a shorter sequence. -/
theorem single_group_append_invariant (b : SingleBuffer) (evs : List IngestEvent) :
    (applyEvents b.clear evs).total_buffer_size = (evs.map (fun e => e.object_size)).sum ∧
      (applyEvents b.clear evs).first_path_timestamp =
        evs.head?.map (fun e => e.process_timestamp) ∧
      (applyEvents b.clear evs).path_list = evs.map (fun e => e.s3_path) := by
  refine ⟨?_, ?_, ?_⟩
  · rw [applyEvents_total]; simp [SingleBuffer.clear]
  · rw [applyEvents_first]; rfl
  · rw [applyEvents_paths]; simp [SingleBuffer.clear]

/-- The per-buffer trigger test embedded in the scan loop: a buffer
with no first timestamp is skipped; otherwise it is collected iff the
size trigger or the age trigger fires. -/
def bufferEligible (now max_buffer_size min_refresh_period : Int) (buf : SingleBuffer) : Bool :=
  match buf.first_path_timestamp with
  | none => false
  | some first_ts =>
    buf.total_buffer_size > max_buffer_size || now - first_ts > min_refresh_period

theorem getBuffersReady_eq_filter (now max_buffer_size min_refresh_period : Int)
    (bufs : List (String × SingleBuffer)) :
    getBuffersReadyForCompression now max_buffer_size min_refresh_period bufs =
      (bufs.filter (fun p => bufferEligible now max_buffer_size min_refresh_period p.2)).map
        Prod.fst := by
  induction bufs with
  | nil => rfl
  | cons hd tl ih =>
    obtain ⟨name, buf⟩ := hd
    cases hfp : buf.first_path_timestamp with
    | none =>
      simp [getBuffersReadyForCompression, bufferEligible, hfp, ih]
    | some t0 =>
      by_cases h1 : buf.total_buffer_size > max_buffer_size
      · simp [getBuffersReadyForCompression, bufferEligible, hfp, h1, ih]
      · by_cases h2 : now - t0 > min_refresh_period
        · simp [getBuffersReadyForCompression, bufferEligible, hfp, h1, h2, ih]
        · simp [getBuffersReadyForCompression, bufferEligible, hfp, h1, h2, ih]

theorem key_nodup_mem_unique {l : List (String × SingleBuffer)}
    (h : (l.map Prod.fst).Nodup) {k : String} {v v' : SingleBuffer}
    (h1 : (k, v) ∈ l) (h2 : (k, v') ∈ l) : v = v' := by
  induction l with
  | nil => simp at h1
  | cons hd tl ih =>
    rw [List.map_cons, List.nodup_cons] at h
    rcases List.mem_cons.mp h1 with he1 | ht1
    · rcases List.mem_cons.mp h2 with he2 | ht2
      · exact congrArg Prod.snd (he1.trans he2.symm)
      · exfalso
        apply h.1
        rw [← he1]
        show k ∈ List.map Prod.fst tl
        exact List.mem_map.mpr ⟨(k, v'), ht2, rfl⟩
    · rcases List.mem_cons.mp h2 with he2 | ht2
      · exfalso
        apply h.1
        rw [← he2]
        show k ∈ List.map Prod.fst tl
        exact List.mem_map.mpr ⟨(k, v), ht1, rfl⟩
      · exact ih h.2 ht1 ht2

/-- Claim C4: a readiness scan marks a group eligible iff its total
size strictly exceeds the maximum, or the elapsed time since its first
member strictly exceeds the minimum refresh period (either condition
alone suffices); a group whose `first_path_timestamp` is unset (zero
members) is never marked.  The key-uniqueness hypothesis models the
Python `dict` the scan iterates over. -/
theorem scan_marks_iff_trigger (now max_buffer_size min_refresh_period : Int)
    (bufs : List (String × SingleBuffer)) (buf_name : String)
    (hnodup : (bufs.map Prod.fst).Nodup) :
    (buf_name ∈ getBuffersReadyForCompression now max_buffer_size min_refresh_period bufs ↔
      ∃ buf first_ts, (buf_name, buf) ∈ bufs ∧
        buf.first_path_timestamp = some first_ts ∧
        (buf.total_buffer_size > max_buffer_size ∨ now - first_ts > min_refresh_period)) ∧
      (∀ buf, (buf_name, buf) ∈ bufs → buf.first_path_timestamp = none →
        buf_name ∉ getBuffersReadyForCompression now max_buffer_size min_refresh_period bufs) := by
  have hiff : buf_name ∈ getBuffersReadyForCompression now max_buffer_size
      min_refresh_period bufs ↔
      ∃ buf first_ts, (buf_name, buf) ∈ bufs ∧
        buf.first_path_timestamp = some first_ts ∧
        (buf.total_buffer_size > max_buffer_size ∨ now - first_ts > min_refresh_period) := by
    rw [getBuffersReady_eq_filter]
    simp only [List.mem_map, List.mem_filter]
    constructor
    · rintro ⟨⟨name, buf⟩, ⟨hmem, helig⟩, rfl⟩
      cases hfp : buf.first_path_timestamp with
      | none => rw [bufferEligible, hfp] at helig; simp at helig
      | some t0 =>
        refine ⟨buf, t0, hmem, hfp, ?_⟩
        rw [bufferEligible, hfp] at helig
        simpa using helig
    · rintro ⟨buf, t0, hmem, hfp, htrig⟩
      refine ⟨(buf_name, buf), ⟨hmem, ?_⟩, rfl⟩
      rw [bufferEligible, hfp]
      simpa using htrig
  refine ⟨hiff, ?_⟩
  intro buf hmem hnone hin
  rcases hiff.mp hin with ⟨buf', t0, hmem', hfp', _⟩
  rw [key_nodup_mem_unique hnodup hmem hmem'] at hnone
  rw [hnone] at hfp'
  exact Option.noConfusion hfp'

/-- Witness for `scan_marks_iff_trigger` on a concrete two-group state:
group `"a"` exceeds the size threshold, group `"b"` is empty. -/
theorem scan_marks_iff_trigger_witness :
    ("a" ∈ getBuffersReadyForCompression 1 16 5000
        [("a", ⟨[["/", "x"]], 20, some 0⟩), ("b", SingleBuffer.init)] ↔
      ∃ buf first_ts,
        ("a", buf) ∈ [("a", ⟨[["/", "x"]], 20, some 0⟩), ("b", SingleBuffer.init)] ∧
        buf.first_path_timestamp = some first_ts ∧
        (buf.total_buffer_size > 16 ∨ 1 - first_ts > 5000)) ∧
      (∀ buf, ("a", buf) ∈ [("a", ⟨[["/", "x"]], 20, some 0⟩), ("b", SingleBuffer.init)] →
        buf.first_path_timestamp = none →
        "a" ∉ getBuffersReadyForCompression 1 16 5000
          [("a", ⟨[["/", "x"]], 20, some 0⟩), ("b", SingleBuffer.init)]) :=
  scan_marks_iff_trigger 1 16 5000
    [("a", ⟨[["/", "x"]], 20, some 0⟩), ("b", SingleBuffer.init)] "a" (by decide)

/-- The group-key computation fails (uncaught `IndexError`) exactly
when the path equals the grouping prefix. -/
theorem computeIndexName_eq_none_iff (group_root s3_path : PyPath) :
    computeIndexName group_root s3_path = none ↔ s3_path = group_root := by
  unfold computeIndexName relativeTo
  by_cases h : group_root.isPrefixOf s3_path
  · rw [if_pos h]
    have hpre : group_root <+: s3_path := List.isPrefixOf_iff_prefix.mp h
    show (s3_path.drop group_root.length).head? = none ↔ _
    rw [List.head?_eq_none_iff, List.drop_eq_nil_iff]
    constructor
    · intro hlen
      exact (List.IsPrefix.eq_of_length hpre
        (le_antisymm hpre.length_le hlen)).symm
    · rintro rfl
      exact le_refl _
  · rw [if_neg h]
    constructor
    · intro hcontr
      exact absurd hcontr (by simp)
    · rintro rfl
      have hself : s3_path.isPrefixOf s3_path = true :=
        List.isPrefixOf_iff_prefix.mpr (List.prefix_refl _)
      exact absurd hself h

/-- A concrete `CompressionBuffer` state: fresh buffer grouping under
`/mnt/data`, thresholds 16 MiB and 5000 ms. -/
def cbExample : CompressionBuffer :=
  { max_buffer_size := 16777216
    min_refresh_period := 5000
    named_buffers := []
    ready_buffers := []
    group_root := ["/", "mnt", "data"]
    lockHeld := false }

/-- Claim C1: `append` raises on a path equal to the grouping prefix.
`s3_path.relative_to(prefix)` succeeds with an empty parts tuple, so
`relative_path.parts[0]` raises `IndexError`, which
`except (KeyError, ValueError)` does not catch: `append` fails instead
of returning normally. -/
theorem append_raises_on_group_root :
    cbExample.append ["/", "mnt", "data"] 100 0 = .error cbExample := by
  rfl

/-- Claim C2: on an empty drain result `([], "")` the submission loop
does not sleep-and-retry: `paths_to_compress` is the 2-tuple returned
by `get_paths_to_compress`, so `0 == len(paths_to_compress)` is false
and the loop falls through to the job-submission branch. -/
theorem submission_step_submits_on_empty_drain :
    submissionLoopStep ([], "") 1 180 = .submitJob ([], "") := by
  decide

/-- Claim C9 (counterexample): for a path that does not fall under the
grouping prefix the computed group key is `""`, not the string
`"ungrouped"`. -/
theorem sentinel_is_not_the_string_ungrouped :
    computeIndexName ["/", "mnt", "data"] ["/", "tmp", "f.log"] ≠ some "ungrouped" ∧
      computeIndexName ["/", "mnt", "data"] ["/", "tmp", "f.log"] = some "" := by
  decide

/-- Claim C9 (amended): the group key is a deterministic function of
the path (given the fixed configured prefix): the first segment after
the prefix for a path strictly under it, and the fixed sentinel `""`
for a path not under it. -/
theorem group_key_cases (group_root s3_path : PyPath) :
    (¬ group_root.isPrefixOf s3_path → computeIndexName group_root s3_path = some "") ∧
      (∀ seg rest, s3_path = group_root ++ seg :: rest →
        computeIndexName group_root s3_path = some seg) := by
  constructor
  · intro h
    simp [computeIndexName, relativeTo, h]
  · rintro seg rest rfl
    simp [computeIndexName, relativeTo, List.isPrefixOf_iff_prefix]

/-- Witness for `group_key_cases` at concrete inputs. -/
theorem group_key_cases_witness :
    computeIndexName ["/", "mnt", "data"] ["/", "tmp", "f.log"] = some "" ∧
      computeIndexName ["/", "mnt", "data"] ["/", "mnt", "data", "idx1", "f.log"] = some "idx1" :=
  ⟨(group_key_cases ["/", "mnt", "data"] ["/", "tmp", "f.log"]).1 (by decide),
   (group_key_cases ["/", "mnt", "data"] ["/", "mnt", "data", "idx1", "f.log"]).2
     "idx1" ["f.log"] rfl⟩

/-- Claim C10: `append` fails exactly when the path equals the
configured grouping prefix, and a failing `append` leaves the buffer
state completely unchanged (the `IndexError` fires before any group is
created or mutated). -/
theorem append_error_iff_path_eq_group_root (cb : CompressionBuffer)
    (s3_path : PyPath) (object_size process_timestamp : Int) :
    (cb.append s3_path object_size process_timestamp = .error cb ↔
      s3_path = cb.group_root) ∧
      (∀ cb', cb.append s3_path object_size process_timestamp = .error cb' → cb' = cb) := by
  have herr : ∀ cb', cb.append s3_path object_size process_timestamp = .error cb' ↔
      (computeIndexName cb.group_root s3_path = none ∧ cb' = cb) := by
    intro cb'
    unfold CompressionBuffer.append
    cases hk : computeIndexName cb.group_root s3_path with
    | none => simp [eq_comm]
    | some idx => simp
  refine ⟨?_, fun cb' h => ((herr cb').mp h).2⟩
  rw [herr cb]
  simp only [and_true]
  exact computeIndexName_eq_none_iff cb.group_root s3_path

/-- Witness for `append_error_iff_path_eq_group_root`: the failing
append at `s3_path = group_root` leaves `cbExample` unchanged. -/
theorem append_error_witness :
    cbExample.append ["/", "mnt", "data"] 100 0 = .error cbExample ∧
      (∀ cb', cbExample.append ["/", "mnt", "data"] 100 0 = .error cb' → cb' = cbExample) :=
  ⟨(append_error_iff_path_eq_group_root cbExample ["/", "mnt", "data"] 100 0).1.mpr rfl,
   (append_error_iff_path_eq_group_root cbExample ["/", "mnt", "data"] 100 0).2⟩

end ClpMonitor
